import Mathlib

/-!
Verification of the document/version subsystem of the `documenter` repository.

The embedding models the server storage layer (`server/storage.ts`) and the
HTTP route layer (`server/routes.ts`) as pure state-passing functions.
`new Date()` is modelled by a monotone `clock : Nat` on the state, advanced at
every read, so later store writes carry strictly larger timestamps.
TypeScript `undefined` (field absent) is the outer `Option`; SQL `null` is the
inner `Option`.  The exported `storage` instance is `DatabaseStorage`, so the
route layer below runs on the `DatabaseStorage` model; `MemStorage` is
modelled separately for the equivalence claim.
-/

/-- A row of the `projects` table (`shared/schema.ts`). -/
structure Proj where
  id : Nat
  name : String
  created_at : Nat
  updated_at : Nat
deriving Repr, DecidableEq

/-- A row of the `documents` table: `content` is nullable (`text("content")`). -/
structure Doc where
  id : Nat
  project_id : Nat
  title : String
  content : Option String
  created_at : Nat
  updated_at : Nat
deriving Repr, DecidableEq

/-- A row of the `versions` table: `content` is `notNull`. -/
structure Version where
  id : Nat
  document_id : Nat
  content : String
  created_at : Nat
deriving Repr, DecidableEq

/-- The database state seen by `DatabaseStorage`, plus the id sequences and the
clock supplying `new Date()` values. -/
structure Storage where
  projects : List Proj
  documents : List Doc
  versions : List Version
  nextProjectId : Nat
  nextDocumentId : Nat
  nextVersionId : Nat
  clock : Nat
deriving Repr, DecidableEq

/-- The body accepted by `insertDocumentSchema.partial()` for
`PATCH /api/documents/:id`: every field optional, `content` additionally
nullable.  Outer `none` = field absent (`undefined`), inner `none` = `null`. -/
structure UpdatePayload where
  project_id : Option Nat := none
  title : Option String := none
  content : Option (Option String) := none
deriving Repr, DecidableEq

/-- The body accepted by `insertDocumentSchema` for `POST /api/documents`. -/
structure InsertDocument where
  project_id : Nat
  title : String
  content : Option (Option String)
deriving Repr, DecidableEq

/-- JavaScript truthiness of a nullable string: truthy iff non-null and
non-empty (`existingDocument.content` in `storage.ts`). -/
def truthy : Option String → Bool
  | none => false
  | some s => !(s == "")

namespace DatabaseStorage

/-- `DatabaseStorage.createVersion`: insert a row with the next serial id and
`created_at = new Date()`. -/
def createVersion (st : Storage) (document_id : Nat) (content : String) :
    Storage × Version :=
  let v : Version := ⟨st.nextVersionId, document_id, content, st.clock⟩
  ({ st with
      versions := v :: st.versions,
      nextVersionId := st.nextVersionId + 1,
      clock := st.clock + 1 }, v)

/-- `DatabaseStorage.getProject`: point lookup by id. -/
def getProject (st : Storage) (id : Nat) : Option Proj :=
  st.projects.find? (fun p => p.id == id)

/-- `DatabaseStorage.getDocument`: point lookup by id. -/
def getDocument (st : Storage) (id : Nat) : Option Doc :=
  st.documents.find? (fun d => d.id == id)

/-- `DatabaseStorage.getVersion`: point lookup by id. -/
def getVersion (st : Storage) (id : Nat) : Option Version :=
  st.versions.find? (fun v => v.id == id)

/-- `DatabaseStorage.createDocument`: normalise `undefined` content to `null`,
insert the row, then — if the stored content is truthy — create the initial
version holding that content. -/
def createDocument (st : Storage) (ins : InsertDocument) : Storage × Doc :=
  let contentValue : Option String :=
    match ins.content with
    | none => none
    | some c => c
  let d : Doc :=
    ⟨st.nextDocumentId, ins.project_id, ins.title, contentValue,
      st.clock, st.clock⟩
  let st1 : Storage :=
    { st with
        documents := d :: st.documents,
        nextDocumentId := st.nextDocumentId + 1,
        clock := st.clock + 1 }
  if truthy d.content then
    ((createVersion st1 d.id (d.content.getD "")).1, d)
  else
    (st1, d)

/-- `DatabaseStorage.updateDocument`: read the existing row; if the payload
carries a `content` field and the existing content is truthy, insert a version
holding the existing content; then update the row (absent payload fields are
skipped, `updated_at` refreshed). -/
def updateDocument (st : Storage) (id : Nat) (u : UpdatePayload) :
    Storage × Option Doc :=
  match st.documents.find? (fun d => d.id == id) with
  | none => (st, none)
  | some existing =>
    let st1 : Storage :=
      if u.content.isSome && truthy existing.content then
        (createVersion st id (existing.content.getD "")).1
      else
        st
    let updated : Doc :=
      { existing with
          project_id := u.project_id.getD existing.project_id,
          title := u.title.getD existing.title,
          content := match u.content with
            | none => existing.content
            | some c => c,
          updated_at := st1.clock }
    ({ st1 with
        documents := st1.documents.map (fun d => if d.id == id then updated else d),
        clock := st1.clock + 1 }, some updated)

/-- `DatabaseStorage.deleteDocument`: delete all versions of the document,
then delete the document row, reporting whether one existed. -/
def deleteDocument (st : Storage) (id : Nat) : Storage × Bool :=
  let st1 : Storage :=
    { st with versions := st.versions.filter (fun v => !(v.document_id == id)) }
  let existed := st1.documents.any (fun d => d.id == id)
  ({ st1 with documents := st1.documents.filter (fun d => !(d.id == id)) },
    existed)

/-- `DatabaseStorage.deleteProject`: fetch the project's documents, delete the
versions of each, delete the documents, then the project row, reporting
whether it existed. -/
def deleteProject (st : Storage) (id : Nat) : Storage × Bool :=
  let projectDocuments := st.documents.filter (fun d => d.project_id == id)
  let st1 : Storage :=
    { st with
        versions := st.versions.filter
          (fun v => !(projectDocuments.any (fun d => d.id == v.document_id))) }
  let st2 : Storage :=
    { st1 with
        documents := st1.documents.filter (fun d => !(d.project_id == id)) }
  let existed := st2.projects.any (fun p => p.id == id)
  ({ st2 with projects := st2.projects.filter (fun p => !(p.id == id)) },
    existed)

end DatabaseStorage

/-- Insertion into a list kept in descending `created_at` order; models the
effect of `orderBy(desc(versions.created_at))`. -/
def insertByCreatedAtDesc (v : Version) : List Version → List Version
  | [] => [v]
  | w :: ws =>
    if w.created_at ≤ v.created_at then v :: w :: ws
    else w :: insertByCreatedAtDesc v ws

/-- Sort a list of versions by descending `created_at`. -/
def sortByCreatedAtDesc (l : List Version) : List Version :=
  l.foldr insertByCreatedAtDesc []

namespace DatabaseStorage

/-- `DatabaseStorage.getVersions`: the versions of the document, newest
first (`where document_id = …  orderBy desc(created_at)`). -/
def getVersions (st : Storage) (documentId : Nat) : List Version :=
  sortByCreatedAtDesc (st.versions.filter (fun v => v.document_id == documentId))

end DatabaseStorage

/-- Client-visible failure of a route (`server/routes.ts` renders it as an
HTTP 404 with a message). -/
inductive RouteError where
  | notFound
deriving Repr, DecidableEq

/-- Discriminator for the error side of a route result. -/
def exceptIsError : Except RouteError Doc → Bool
  | Except.error _ => true
  | Except.ok _ => false

namespace Routes

/-- `POST /api/documents`: 404 if the referenced project does not exist,
otherwise `storage.createDocument`. -/
def postDocument (st : Storage) (ins : InsertDocument) :
    Storage × Except RouteError Doc :=
  match DatabaseStorage.getProject st ins.project_id with
  | none => (st, Except.error RouteError.notFound)
  | some _ =>
    let r := DatabaseStorage.createDocument st ins
    (r.1, Except.ok r.2)

/-- `PATCH /api/documents/:id`: `storage.updateDocument`, 404 when the
document is absent. -/
def patchDocument (st : Storage) (id : Nat) (u : UpdatePayload) :
    Storage × Except RouteError Doc :=
  match DatabaseStorage.updateDocument st id u with
  | (st', none) => (st', Except.error RouteError.notFound)
  | (st', some d) => (st', Except.ok d)

end Routes

/-- The restore action of `VersionHistory` (`handleRestore` →
`restoreVersionMutation`): the client holds the selected `Version` value and
issues `PATCH /api/documents/:id` with body `{content: version.content}`.
No version id reaches the server and no existence or ownership check of the
version is performed. -/
def handleRestore (st : Storage) (documentId : Nat) (selectedVersion : Version) :
    Storage × Except RouteError Doc :=
  Routes.patchDocument st documentId { content := some (some selectedVersion.content) }

/-- A version row as `MemStorage` actually stores it: `updateDocument` passes
the raw incoming `content`, which may be `null`. -/
structure MemVersion where
  id : Nat
  document_id : Nat
  content : Option String
  created_at : Nat
deriving Repr, DecidableEq

/-- The in-memory maps and id counters of `MemStorage` (only the parts the
update path touches). -/
structure MemState where
  documents : List Doc
  versions : List MemVersion
  nextVersionId : Nat
  clock : Nat
deriving Repr, DecidableEq

namespace MemStorage

/-- `MemStorage.updateDocument`: spread the payload over the existing row and
store it, then — whenever the payload carries a `content` field — create a
version holding the *incoming* content. -/
def updateDocument (st : MemState) (id : Nat) (u : UpdatePayload) :
    MemState × Option Doc :=
  match st.documents.find? (fun d => d.id == id) with
  | none => (st, none)
  | some existing =>
    let updated : Doc :=
      { existing with
          project_id := u.project_id.getD existing.project_id,
          title := u.title.getD existing.title,
          content := match u.content with
            | none => existing.content
            | some c => c,
          updated_at := st.clock }
    let st1 : MemState :=
      { st with
          documents := st.documents.map (fun d => if d.id == id then updated else d),
          clock := st.clock + 1 }
    match u.content with
    | none => (st1, some updated)
    | some c =>
      let v : MemVersion := ⟨st1.nextVersionId, id, c, st1.clock⟩
      ({ st1 with
          versions := v :: st1.versions,
          nextVersionId := st1.nextVersionId + 1,
          clock := st1.clock + 1 }, some updated)

end MemStorage

/-- A path segment of a registered express route: a literal or a `:param`
placeholder. -/
inductive Seg where
  | lit (s : String)
  | param
deriving Repr, DecidableEq

/-- A route registered in `registerRoutes`. -/
structure Route where
  method : String
  segments : List Seg
deriving Repr, DecidableEq

/-- Every route registered by `registerRoutes` in `server/routes.ts`, in
source order. -/
def registeredRoutes : List Route :=
  [⟨"GET", [Seg.lit "api", Seg.lit "projects"]⟩,
   ⟨"GET", [Seg.lit "api", Seg.lit "projects", Seg.param]⟩,
   ⟨"POST", [Seg.lit "api", Seg.lit "projects"]⟩,
   ⟨"PATCH", [Seg.lit "api", Seg.lit "projects", Seg.param]⟩,
   ⟨"DELETE", [Seg.lit "api", Seg.lit "projects", Seg.param]⟩,
   ⟨"GET", [Seg.lit "api", Seg.lit "projects", Seg.param, Seg.lit "documents"]⟩,
   ⟨"GET", [Seg.lit "api", Seg.lit "documents", Seg.param]⟩,
   ⟨"POST", [Seg.lit "api", Seg.lit "documents"]⟩,
   ⟨"PATCH", [Seg.lit "api", Seg.lit "documents", Seg.param]⟩,
   ⟨"DELETE", [Seg.lit "api", Seg.lit "documents", Seg.param]⟩,
   ⟨"GET", [Seg.lit "api", Seg.lit "documents", Seg.param, Seg.lit "versions"]⟩,
   ⟨"GET", [Seg.lit "api", Seg.lit "versions", Seg.param]⟩,
   ⟨"POST", [Seg.lit "api", Seg.lit "versions"]⟩]

/-- The version-operation names declared on `IStorage`
(`storage.ts`, the `Version operations` block). -/
def iStorageVersionOps : List String :=
  ["getVersions", "getVersion", "createVersion"]

/-- Does a pattern segment accept a concrete path segment? -/
def segMatches : Seg → String → Bool
  | Seg.lit s, x => s == x
  | Seg.param, _ => true

/-- Express-style matching of a concrete request against a registered route. -/
def routeMatches (r : Route) (method : String) (path : List String) : Bool :=
  r.method == method && r.segments.length == path.length &&
    (r.segments.zip path).all (fun p => segMatches p.1 p.2)

/-- The request issued by the client's `deleteVersionMutation`
(`fetch("/api/versions/" + versionId, {method: "DELETE"})`). -/
def deleteVersionRequest (versionId : Nat) : String × List String :=
  ("DELETE", ["api", "versions", toString versionId])

/-! ## Helper lemmas -/

theorem find?_map_replace (l : List Doc) (id : Nat) (d u : Doc)
    (h : l.find? (fun x => x.id == id) = some d) (hu : u.id = id) :
    (l.map (fun x => if x.id == id then u else x)).find? (fun x => x.id == id)
      = some u := by
  induction l with
  | nil => simp at h
  | cons x xs ih =>
    by_cases hx : (x.id == id) = true
    · rw [List.map_cons, if_pos hx]
      simp [List.find?, hu]
    · have hx' : (x.id == id) = false := by simpa using hx
      simp only [List.find?, hx', cond_false] at h
      have hmap : ((x :: xs).map (fun y => if y.id == id then u else y))
          = x :: xs.map (fun y => if y.id == id then u else y) := by
        rw [List.map_cons, if_neg hx]
      rw [hmap]
      simp only [List.find?, hx', cond_false]
      exact ih h

theorem insertByCreatedAtDesc_perm (v : Version) (l : List Version) :
    List.Perm (insertByCreatedAtDesc v l) (v :: l) := by
  induction l with
  | nil => simp [insertByCreatedAtDesc]
  | cons w ws ih =>
    by_cases h : w.created_at ≤ v.created_at
    · simp [insertByCreatedAtDesc, h]
    · simp only [insertByCreatedAtDesc, if_neg h]
      exact List.Perm.trans (ih.cons w) (List.Perm.swap v w ws)

theorem sortByCreatedAtDesc_perm (l : List Version) :
    List.Perm (sortByCreatedAtDesc l) l := by
  induction l with
  | nil => simp [sortByCreatedAtDesc]
  | cons v vs ih =>
    exact List.Perm.trans (insertByCreatedAtDesc_perm v (sortByCreatedAtDesc vs))
      (ih.cons v)

theorem pairwise_insertByCreatedAtDesc (v : Version) (l : List Version)
    (hl : l.Pairwise (fun a b => b.created_at ≤ a.created_at)) :
    (insertByCreatedAtDesc v l).Pairwise
      (fun a b => b.created_at ≤ a.created_at) := by
  induction l with
  | nil => simp [insertByCreatedAtDesc]
  | cons w ws ih =>
    rcases List.pairwise_cons.mp hl with ⟨hw, hws⟩
    by_cases h : w.created_at ≤ v.created_at
    · simp only [insertByCreatedAtDesc, if_pos h]
      refine List.pairwise_cons.mpr ⟨?_, hl⟩
      intro b hb
      rcases List.mem_cons.mp hb with rfl | hb'
      · exact h
      · exact le_trans (hw b hb') h
    · simp only [insertByCreatedAtDesc, if_neg h]
      refine List.pairwise_cons.mpr ⟨?_, ih hws⟩
      intro b hb
      have hb' : b = v ∨ b ∈ ws := by
        have := (insertByCreatedAtDesc_perm v ws).mem_iff.mp hb
        simpa using this
      rcases hb' with rfl | hb'
      · omega
      · exact hw b hb'

theorem pairwise_sortByCreatedAtDesc (l : List Version) :
    (sortByCreatedAtDesc l).Pairwise
      (fun a b => b.created_at ≤ a.created_at) := by
  induction l with
  | nil => simp [sortByCreatedAtDesc]
  | cons v vs ih => exact pairwise_insertByCreatedAtDesc v _ ih

theorem updateDocument_capture_case (st : Storage) (id : Nat) (d : Doc)
    (a : String) (u : UpdatePayload) (c : Option String)
    (hfind : st.documents.find? (fun x => x.id == id) = some d)
    (hcontent : d.content = some a) (hne : a ≠ "") (hu : u.content = some c) :
    DatabaseStorage.updateDocument st id u =
      ({ st with
          versions := ⟨st.nextVersionId, id, a, st.clock⟩ :: st.versions,
          nextVersionId := st.nextVersionId + 1,
          clock := st.clock + 2,
          documents := st.documents.map (fun x => if x.id == id then
            { d with
                project_id := u.project_id.getD d.project_id,
                title := u.title.getD d.title,
                content := c,
                updated_at := st.clock + 1 } else x) },
        some { d with
                project_id := u.project_id.getD d.project_id,
                title := u.title.getD d.title,
                content := c,
                updated_at := st.clock + 1 }) := by
  have htruthy : truthy (some a) = true := by simp [truthy, hne]
  simp only [DatabaseStorage.updateDocument, hfind, hu, hcontent, htruthy,
    Option.isSome_some, Bool.and_true, Bool.true_and, if_true,
    DatabaseStorage.createVersion, Option.getD_some]

theorem updateDocument_nocapture_case (st : Storage) (id : Nat) (d : Doc)
    (u : UpdatePayload)
    (hfind : st.documents.find? (fun x => x.id == id) = some d)
    (hnocap : (u.content.isSome && truthy d.content) = false) :
    DatabaseStorage.updateDocument st id u =
      ({ st with
          clock := st.clock + 1,
          documents := st.documents.map (fun x => if x.id == id then
            { d with
                project_id := u.project_id.getD d.project_id,
                title := u.title.getD d.title,
                content := match u.content with
                  | none => d.content
                  | some c => c,
                updated_at := st.clock } else x) },
        some { d with
                project_id := u.project_id.getD d.project_id,
                title := u.title.getD d.title,
                content := match u.content with
                  | none => d.content
                  | some c => c,
                updated_at := st.clock }) := by
  simp only [DatabaseStorage.updateDocument, hfind, hnocap, if_false,
    Bool.false_eq_true]

/-! ## Sample states used by witnesses and counterexamples -/

/-- A store holding one project (id 1) and one document (id 1, content "A"). -/
def baseState : Storage :=
  ⟨[⟨1, "P", 0, 0⟩], [⟨1, 1, "T", some "A", 0, 0⟩], [], 2, 2, 1, 5⟩

/-- A store holding one project and one document with `content = null`. -/
def emptyDocState : Storage :=
  ⟨[⟨1, "P", 0, 0⟩], [⟨1, 1, "T", none, 0, 0⟩], [], 2, 2, 1, 5⟩

/-! ## Claims -/

/-- Claim C1: updating an existing document whose stored content is a
non-empty string `a` with a payload carrying `content = b` inserts exactly one
new version holding the prior value `a`, timestamped strictly before the
refreshed `updated_at` of the document row, and afterwards the stored
document's content is `b`. -/
theorem c1_update_captures_prior_content (st : Storage) (id : Nat) (d : Doc)
    (a b : String) (hfind : DatabaseStorage.getDocument st id = some d)
    (hcontent : d.content = some a) (hne : a ≠ "") :
    (DatabaseStorage.updateDocument st id { content := some (some b) }).1.versions
        = ⟨st.nextVersionId, id, a, st.clock⟩ :: st.versions ∧
    ∃ d', (DatabaseStorage.updateDocument st id { content := some (some b) }).2
        = some d' ∧
      d'.content = some b ∧
      st.clock < d'.updated_at ∧
      DatabaseStorage.getDocument
        (DatabaseStorage.updateDocument st id { content := some (some b) }).1 id
          = some d' := by
  have hfind' : st.documents.find? (fun x => x.id == id) = some d := hfind
  have heq := updateDocument_capture_case st id d a
    { content := some (some b) } (some b) hfind' hcontent hne rfl
  rw [heq]
  have hid : d.id = id := by
    have := List.find?_some hfind'
    simpa using this
  refine ⟨rfl, _, rfl, rfl, Nat.lt_succ_self st.clock, ?_⟩
  exact find?_map_replace st.documents id d _ hfind' hid

/-- Witness for C1: a concrete document with content "A" updated to "B". -/
theorem c1_witness :
    (DatabaseStorage.updateDocument baseState 1 { content := some (some "B") }).1.versions
        = ⟨1, 1, "A", 5⟩ :: baseState.versions ∧
    ∃ d', (DatabaseStorage.updateDocument baseState 1 { content := some (some "B") }).2
        = some d' ∧
      d'.content = some "B" ∧
      5 < d'.updated_at ∧
      DatabaseStorage.getDocument
        (DatabaseStorage.updateDocument baseState 1 { content := some (some "B") }).1 1
          = some d' :=
  c1_update_captures_prior_content baseState 1 ⟨1, 1, "T", some "A", 0, 0⟩
    "A" "B" rfl rfl (by decide)

/-- Claim C5: clearing a document whose stored content is the non-empty
string `a` (payload `content = ""`) creates exactly one version and it holds
the prior non-empty content `a`; the document's content becomes the empty
string; the single created version does not hold the empty content. -/
theorem c5_clear_captures_prior_content (st : Storage) (id : Nat) (d : Doc)
    (a : String) (hfind : DatabaseStorage.getDocument st id = some d)
    (hcontent : d.content = some a) (hne : a ≠ "") :
    (DatabaseStorage.updateDocument st id { content := some (some "") }).1.versions
        = ⟨st.nextVersionId, id, a, st.clock⟩ :: st.versions ∧
    (⟨st.nextVersionId, id, a, st.clock⟩ : Version).content ≠ "" ∧
    ∃ d', (DatabaseStorage.updateDocument st id { content := some (some "") }).2
        = some d' ∧
      d'.content = some "" ∧
      DatabaseStorage.getDocument
        (DatabaseStorage.updateDocument st id { content := some (some "") }).1 id
          = some d' := by
  have hfind' : st.documents.find? (fun x => x.id == id) = some d := hfind
  have heq := updateDocument_capture_case st id d a
    { content := some (some "") } (some "") hfind' hcontent hne rfl
  rw [heq]
  have hid : d.id = id := by
    have := List.find?_some hfind'
    simpa using this
  refine ⟨rfl, hne, _, rfl, rfl, ?_⟩
  exact find?_map_replace st.documents id d _ hfind' hid

/-- Witness for C5: clearing a concrete document with content "A". -/
theorem c5_witness :
    (DatabaseStorage.updateDocument baseState 1 { content := some (some "") }).1.versions
        = ⟨1, 1, "A", 5⟩ :: baseState.versions ∧
    (⟨1, 1, "A", 5⟩ : Version).content ≠ "" ∧
    ∃ d', (DatabaseStorage.updateDocument baseState 1 { content := some (some "") }).2
        = some d' ∧
      d'.content = some "" ∧
      DatabaseStorage.getDocument
        (DatabaseStorage.updateDocument baseState 1 { content := some (some "") }).1 1
          = some d' :=
  c5_clear_captures_prior_content baseState 1 ⟨1, 1, "T", some "A", 0, 0⟩
    "A" rfl rfl (by decide)

/-- Claim C6: an update payload without a `content` field creates zero new
versions regardless of the existing content, leaves the document's `content`,
`id`, `project_id`, `created_at` unchanged, applies the supplied fields and
refreshes `updated_at`. -/
theorem c6_no_content_field_no_capture (st : Storage) (id : Nat)
    (u : UpdatePayload) (d : Doc)
    (hfind : DatabaseStorage.getDocument st id = some d)
    (hu : u.content = none) :
    (DatabaseStorage.updateDocument st id u).1.versions = st.versions ∧
    ∃ d', (DatabaseStorage.updateDocument st id u).2 = some d' ∧
      d'.content = d.content ∧
      d'.id = d.id ∧
      d'.project_id = u.project_id.getD d.project_id ∧
      d'.title = u.title.getD d.title ∧
      d'.created_at = d.created_at ∧
      d'.updated_at = st.clock ∧
      DatabaseStorage.getDocument (DatabaseStorage.updateDocument st id u).1 id
        = some d' := by
  have hfind' : st.documents.find? (fun x => x.id == id) = some d := hfind
  have hnocap : (u.content.isSome && truthy d.content) = false := by
    simp [hu]
  have heq := updateDocument_nocapture_case st id d u hfind' hnocap
  rw [heq]
  have hid : d.id = id := by
    have := List.find?_some hfind'
    simpa using this
  refine ⟨rfl, _, rfl, ?_, rfl, rfl, rfl, rfl, rfl, ?_⟩
  · simp [hu]
  · exact find?_map_replace st.documents id d _ hfind' hid

/-- Witness for C6: a title-only update of a concrete document. -/
theorem c6_witness :
    (DatabaseStorage.updateDocument baseState 1 { title := some "X" }).1.versions
        = baseState.versions ∧
    ∃ d', (DatabaseStorage.updateDocument baseState 1 { title := some "X" }).2
        = some d' ∧
      d'.content = (⟨1, 1, "T", some "A", 0, 0⟩ : Doc).content ∧
      d'.id = (⟨1, 1, "T", some "A", 0, 0⟩ : Doc).id ∧
      d'.project_id = (none : Option Nat).getD (⟨1, 1, "T", some "A", 0, 0⟩ : Doc).project_id ∧
      d'.title = (some "X").getD (⟨1, 1, "T", some "A", 0, 0⟩ : Doc).title ∧
      d'.created_at = (⟨1, 1, "T", some "A", 0, 0⟩ : Doc).created_at ∧
      d'.updated_at = baseState.clock ∧
      DatabaseStorage.getDocument
        (DatabaseStorage.updateDocument baseState 1 { title := some "X" }).1 1
          = some d' :=
  c6_no_content_field_no_capture baseState 1 { title := some "X" }
    ⟨1, 1, "T", some "A", 0, 0⟩ rfl rfl

/-- Claim C3 corrected: updating a document whose stored content is empty
(`null` or `""`) with non-empty content `a` creates zero versions — the
anchor-capture of first content happens only at `createDocument`, not at
update — while the document's content does become `a`. -/
theorem c3_update_from_empty_no_capture (st : Storage) (id : Nat) (d : Doc)
    (a : String) (hfind : DatabaseStorage.getDocument st id = some d)
    (hempty : d.content = none ∨ d.content = some "") :
    (DatabaseStorage.updateDocument st id { content := some (some a) }).1.versions
        = st.versions ∧
    ∃ d', (DatabaseStorage.updateDocument st id { content := some (some a) }).2
        = some d' ∧
      d'.content = some a ∧
      DatabaseStorage.getDocument
        (DatabaseStorage.updateDocument st id { content := some (some a) }).1 id
          = some d' := by
  have hfind' : st.documents.find? (fun x => x.id == id) = some d := hfind
  have hnocap : (((some (some a) : Option (Option String)).isSome
      && truthy d.content)) = false := by
    rcases hempty with h | h <;> simp [h, truthy]
  have heq := updateDocument_nocapture_case st id d
    { content := some (some a) } hfind' hnocap
  rw [heq]
  have hid : d.id = id := by
    have := List.find?_some hfind'
    simpa using this
  refine ⟨rfl, _, rfl, rfl, ?_⟩
  exact find?_map_replace st.documents id d _ hfind' hid

/-- Counterexample to C3 as stated: a document created with no content and
updated to "A" ends up with zero versions, not one version holding "A". -/
theorem c3_counterexample :
    (DatabaseStorage.updateDocument emptyDocState 1 { content := some (some "A") }).1.versions
        = [] ∧
    (((DatabaseStorage.updateDocument emptyDocState 1 { content := some (some "A") }).1.versions.map
        (fun v => v.content)) == ["A"]) = false := by
  exact ⟨rfl, rfl⟩

/-- Witness for the corrected C3: the concrete empty-content document. -/
theorem c3_witness :
    (DatabaseStorage.updateDocument emptyDocState 1 { content := some (some "A") }).1.versions
        = emptyDocState.versions ∧
    ∃ d', (DatabaseStorage.updateDocument emptyDocState 1 { content := some (some "A") }).2
        = some d' ∧
      d'.content = some "A" ∧
      DatabaseStorage.getDocument
        (DatabaseStorage.updateDocument emptyDocState 1 { content := some (some "A") }).1 1
          = some d' :=
  c3_update_from_empty_no_capture emptyDocState 1 ⟨1, 1, "T", none, 0, 0⟩
    "A" rfl (Or.inl rfl)

/-- A store for the C2 counterexample: document 1 holds "B"; the only stored
version (id 7) belongs to document 2; version id 5 does not exist at all. -/
def c2State : Storage :=
  ⟨[⟨1, "P", 0, 0⟩],
   [⟨1, 1, "T", some "B", 0, 0⟩, ⟨2, 1, "U", some "x", 0, 0⟩],
   [⟨7, 2, "A", 0⟩], 2, 3, 8, 5⟩

/-- Claim C2 corrected: restore is the client-side `handleRestore`, which
performs exactly `PATCH /api/documents/:id` with `{content: version.content}`
— the identical capture path of `updateDocument` — so when the document's
current content is the non-empty string `a` it is preserved as one new
version before being overwritten with the version's content.  No absence or
ownership check of the version is performed. -/
theorem c2_restore_through_capture_path (st : Storage) (docId : Nat)
    (v : Version) (d : Doc) (a : String)
    (hfind : DatabaseStorage.getDocument st docId = some d)
    (hcontent : d.content = some a) (hne : a ≠ "") :
    handleRestore st docId v
        = Routes.patchDocument st docId { content := some (some v.content) } ∧
    (handleRestore st docId v).1.versions
        = ⟨st.nextVersionId, docId, a, st.clock⟩ :: st.versions ∧
    ∃ d', (handleRestore st docId v).2 = Except.ok d' ∧
      d'.content = some v.content := by
  have hfind' : st.documents.find? (fun x => x.id == docId) = some d := hfind
  have heq := updateDocument_capture_case st docId d a
    { content := some (some v.content) } (some v.content) hfind' hcontent hne rfl
  refine ⟨rfl, ?_, ?_⟩
  · simp only [handleRestore, Routes.patchDocument, heq]
  · have hred : (handleRestore st docId v).2
        = Except.ok { d with
            project_id :=
              ({ content := some (some v.content) } : UpdatePayload).project_id.getD
                d.project_id,
            title :=
              ({ content := some (some v.content) } : UpdatePayload).title.getD
                d.title,
            content := some v.content,
            updated_at := st.clock + 1 } := by
      simp only [handleRestore, Routes.patchDocument, heq]
    exact ⟨_, hred, rfl⟩

/-- Counterexample to C2 as stated: restoring document 1 with a version value
that is absent from the store and belongs to document 2 does not fail with
NotFound — it succeeds and overwrites document 1. -/
theorem c2_counterexample :
    exceptIsError (handleRestore c2State 1 ⟨5, 2, "A", 0⟩).2 = false ∧
    (handleRestore c2State 1 ⟨5, 2, "A", 0⟩).2
        = Except.ok ⟨1, 1, "T", some "A", 0, 6⟩ := by
  exact ⟨rfl, rfl⟩

/-- Witness for the corrected C2: restoring concrete document 1 (content "B")
with the foreign version preserves "B" as a new version. -/
theorem c2_witness :
    handleRestore c2State 1 ⟨7, 2, "A", 0⟩
        = Routes.patchDocument c2State 1 { content := some (some "A") } ∧
    (handleRestore c2State 1 ⟨7, 2, "A", 0⟩).1.versions
        = ⟨8, 1, "B", 5⟩ :: c2State.versions ∧
    ∃ d', (handleRestore c2State 1 ⟨7, 2, "A", 0⟩).2 = Except.ok d' ∧
      d'.content = some "A" :=
  c2_restore_through_capture_path c2State 1 ⟨7, 2, "A", 0⟩
    ⟨1, 1, "T", some "B", 0, 0⟩ "B" rfl rfl (by decide)

/-- Claim C4: `POST /api/documents` fails NotFound when the project does not
exist; on success with non-empty supplied content exactly one version is
created holding that content; with absent, null or empty content no version
is created. -/
theorem c4_createDocument_policy (st : Storage) (ins : InsertDocument) :
    (DatabaseStorage.getProject st ins.project_id = none →
      Routes.postDocument st ins = (st, Except.error RouteError.notFound)) ∧
    (∀ p, DatabaseStorage.getProject st ins.project_id = some p →
      (∀ c : String, ins.content = some (some c) → c ≠ "" →
        (Routes.postDocument st ins).1.versions
            = ⟨st.nextVersionId, st.nextDocumentId, c, st.clock + 1⟩ :: st.versions ∧
        (Routes.postDocument st ins).2
            = Except.ok ⟨st.nextDocumentId, ins.project_id, ins.title, some c,
                st.clock, st.clock⟩) ∧
      ((ins.content = none ∨ ins.content = some none ∨ ins.content = some (some "")) →
        (Routes.postDocument st ins).1.versions = st.versions ∧
        ∃ d, (Routes.postDocument st ins).2 = Except.ok d)) := by
  constructor
  · intro hnone
    simp only [Routes.postDocument, hnone]
  · intro p hp
    constructor
    · intro c hc hne
      have htruthy : truthy (some c) = true := by simp [truthy, hne]
      constructor
      · simp only [Routes.postDocument, hp, DatabaseStorage.createDocument, hc,
          htruthy, if_true, DatabaseStorage.createVersion, Option.getD_some]
      · simp only [Routes.postDocument, hp, DatabaseStorage.createDocument, hc,
          htruthy, if_true, DatabaseStorage.createVersion, Option.getD_some]
    · intro hempty
      rcases hempty with h | h | h
      · refine ⟨?_, ⟨st.nextDocumentId, ins.project_id, ins.title, none,
            st.clock, st.clock⟩, ?_⟩ <;>
          simp only [Routes.postDocument, hp, DatabaseStorage.createDocument, h,
            truthy, Bool.false_eq_true, if_false]
      · refine ⟨?_, ⟨st.nextDocumentId, ins.project_id, ins.title, none,
            st.clock, st.clock⟩, ?_⟩ <;>
          simp only [Routes.postDocument, hp, DatabaseStorage.createDocument, h,
            truthy, Bool.false_eq_true, if_false]
      · have hb : (!("" == "")) = false := by decide
        refine ⟨?_, ⟨st.nextDocumentId, ins.project_id, ins.title, some "",
            st.clock, st.clock⟩, ?_⟩ <;>
          simp only [Routes.postDocument, hp, DatabaseStorage.createDocument, h,
            truthy, hb, Bool.false_eq_true, if_false]

/-- Witness for C4: creating a document under existing project 1 with
non-empty content "hello" yields one version holding "hello"; a creation
against missing project 9 fails NotFound. -/
theorem c4_witness :
    ((Routes.postDocument baseState ⟨1, "T2", some (some "hello")⟩).1.versions
        = ⟨1, 2, "hello", 6⟩ :: baseState.versions ∧
      (Routes.postDocument baseState ⟨1, "T2", some (some "hello")⟩).2
        = Except.ok ⟨2, 1, "T2", some "hello", 5, 5⟩) ∧
    Routes.postDocument baseState ⟨9, "T2", some (some "hello")⟩
        = (baseState, Except.error RouteError.notFound) :=
  ⟨((c4_createDocument_policy baseState ⟨1, "T2", some (some "hello")⟩).2
      ⟨1, "P", 0, 0⟩ rfl).1 "hello" rfl (by decide),
    (c4_createDocument_policy baseState ⟨9, "T2", some (some "hello")⟩).1 rfl⟩

/-- Claim C7: `getVersions` returns exactly the versions of the requested
document — a permutation of the matching rows, each belonging to the
document — sorted by descending `created_at`; in particular for a store
holding exactly three versions of the document created at times
t1 < t2 < t3 the result is `[v3, v2, v1]`. -/
theorem c7_getVersions_newest_first (st : Storage) (did : Nat) :
    (∀ v, v ∈ DatabaseStorage.getVersions st did → v.document_id = did) ∧
    List.Perm (DatabaseStorage.getVersions st did)
      (st.versions.filter (fun v => v.document_id == did)) ∧
    (DatabaseStorage.getVersions st did).Pairwise
      (fun a b => b.created_at ≤ a.created_at) ∧
    (∀ v1 v2 v3 : Version,
      st.versions = [v1, v2, v3] →
      v1.document_id = did → v2.document_id = did → v3.document_id = did →
      v1.created_at < v2.created_at → v2.created_at < v3.created_at →
      DatabaseStorage.getVersions st did = [v3, v2, v1]) := by
  refine ⟨?_, ?_, ?_, ?_⟩
  · intro v hv
    have hv' : v ∈ st.versions.filter (fun v => v.document_id == did) :=
      (sortByCreatedAtDesc_perm _).mem_iff.mp hv
    have := List.of_mem_filter hv'
    simpa using this
  · exact sortByCreatedAtDesc_perm _
  · exact pairwise_sortByCreatedAtDesc _
  · intro v1 v2 v3 hst h1 h2 h3 h12 h23
    simp only [DatabaseStorage.getVersions, hst]
    have hf : List.filter (fun v => v.document_id == did) [v1, v2, v3]
        = [v1, v2, v3] := by
      simp [h1, h2, h3]
    rw [hf]
    have e3 : insertByCreatedAtDesc v3 [] = [v3] := rfl
    have e2 : insertByCreatedAtDesc v2 [v3] = [v3, v2] := by
      simp only [insertByCreatedAtDesc]
      rw [if_neg (by omega)]
    have e1 : insertByCreatedAtDesc v1 [v3, v2] = [v3, v2, v1] := by
      simp only [insertByCreatedAtDesc]
      rw [if_neg (by omega), if_neg (by omega)]
    simp only [sortByCreatedAtDesc, List.foldr_cons, List.foldr_nil, e3, e2, e1]

/-- A store holding three versions of document 1, created at times 1 < 2 < 3. -/
def c7State : Storage :=
  ⟨[⟨1, "P", 0, 0⟩], [⟨1, 1, "T", some "A", 0, 0⟩],
   [⟨1, 1, "x", 1⟩, ⟨2, 1, "y", 2⟩, ⟨3, 1, "z", 3⟩], 2, 2, 4, 9⟩

/-- Witness for C7: on the concrete three-version store the result is
newest first. -/
theorem c7_witness :
    DatabaseStorage.getVersions c7State 1
      = [⟨3, 1, "z", 3⟩, ⟨2, 1, "y", 2⟩, ⟨1, 1, "x", 1⟩] :=
  (c7_getVersions_newest_first c7State 1).2.2.2
    ⟨1, 1, "x", 1⟩ ⟨2, 1, "y", 2⟩ ⟨3, 1, "z", 3⟩ rfl rfl rfl rfl
    (by decide) (by decide)

/-- Claim C8: `deleteDocument` removes every version referencing the document
and the document row, returning whether a document existed; deleting a
missing id returns false, also on repetition; `deleteProject` leaves no
document of the project and no version referencing any of the project's
documents, returning whether the project existed. -/
theorem c8_cascade_and_idempotent_delete (st : Storage) (id pid : Nat) :
    (DatabaseStorage.deleteDocument st id).1.versions
        = st.versions.filter (fun v => !(v.document_id == id)) ∧
    (DatabaseStorage.deleteDocument st id).1.documents
        = st.documents.filter (fun d => !(d.id == id)) ∧
    (DatabaseStorage.deleteDocument st id).2
        = st.documents.any (fun d => d.id == id) ∧
    (st.documents.any (fun d => d.id == id) = false →
      (DatabaseStorage.deleteDocument st id).2 = false ∧
      (DatabaseStorage.deleteDocument
          (DatabaseStorage.deleteDocument st id).1 id).2 = false) ∧
    (∀ d, d ∈ (DatabaseStorage.deleteProject st pid).1.documents →
      d.project_id ≠ pid) ∧
    (∀ v, v ∈ (DatabaseStorage.deleteProject st pid).1.versions →
      ∀ d, d ∈ st.documents → d.project_id = pid → v.document_id ≠ d.id) ∧
    (DatabaseStorage.deleteProject st pid).2
        = st.projects.any (fun p => p.id == pid) := by
  refine ⟨rfl, rfl, rfl, ?_, ?_, ?_, rfl⟩
  · intro h
    refine ⟨h, ?_⟩
    show (st.documents.filter (fun d => !(d.id == id))).any
      (fun d => d.id == id) = false
    rw [List.any_eq_false]
    intro x hx
    have := List.of_mem_filter hx
    simpa using this
  · intro d hd
    have hd' : d ∈ st.documents.filter (fun x => !(x.project_id == pid)) := hd
    have := List.of_mem_filter hd'
    simpa using this
  · intro v hv d hd hdp
    have hv' : v ∈ st.versions.filter
        (fun v => !((st.documents.filter (fun x => x.project_id == pid)).any
          (fun x => x.id == v.document_id))) := hv
    have hany : ((st.documents.filter (fun x => x.project_id == pid)).any
        (fun x => x.id == v.document_id)) = false := by
      have := List.of_mem_filter hv'
      simpa using this
    have hdmem : d ∈ st.documents.filter (fun x => x.project_id == pid) :=
      List.mem_filter.mpr ⟨hd, by simp [hdp]⟩
    intro hEq
    rw [List.any_eq_false] at hany
    exact hany d hdmem (by simp [hEq])

/-- A store with project 1 owning document 1 (two versions), project 2 owning
document 2 (one version). -/
def c8State : Storage :=
  ⟨[⟨1, "P", 0, 0⟩, ⟨2, "Q", 0, 0⟩],
   [⟨1, 1, "T", some "A", 0, 0⟩, ⟨2, 2, "U", some "B", 0, 0⟩],
   [⟨1, 1, "x", 1⟩, ⟨2, 1, "y", 2⟩, ⟨3, 2, "z", 3⟩], 3, 3, 4, 9⟩

/-- Witness for C8: concrete cascade of document 1 and project 1, and the
idempotent false of deleting missing document 99 twice. -/
theorem c8_witness :
    ((DatabaseStorage.deleteDocument c8State 99).2 = false ∧
      (DatabaseStorage.deleteDocument
          (DatabaseStorage.deleteDocument c8State 99).1 99).2 = false) ∧
    (DatabaseStorage.deleteDocument c8State 1).1.versions
        = c8State.versions.filter (fun v => !(v.document_id == 1)) ∧
    (DatabaseStorage.deleteDocument c8State 1).2
        = c8State.documents.any (fun d => d.id == 1) ∧
    (⟨3, 2, "z", 3⟩ : Version).document_id ≠ (⟨1, 1, "T", some "A", 0, 0⟩ : Doc).id ∧
    (DatabaseStorage.deleteProject c8State 1).2
        = c8State.projects.any (fun p => p.id == 1) :=
  ⟨(c8_cascade_and_idempotent_delete c8State 99 1).2.2.2.1 rfl,
   (c8_cascade_and_idempotent_delete c8State 1 1).1,
   (c8_cascade_and_idempotent_delete c8State 1 1).2.2.1,
   (c8_cascade_and_idempotent_delete c8State 1 1).2.2.2.2.2.1
     ⟨3, 2, "z", 3⟩ (by decide) ⟨1, 1, "T", some "A", 0, 0⟩ (by decide) rfl,
   (c8_cascade_and_idempotent_delete c8State 1 1).2.2.2.2.2.2⟩

/-- Claim C9 (code bug): the client issues `DELETE /api/versions/:id`
(`deleteVersionMutation`), but `registerRoutes` registers no route matching
that request and `IStorage` declares no `deleteVersion` operation. -/
theorem c9_deleteVersion_not_provided :
    (registeredRoutes.all
      (fun r => !(routeMatches r (deleteVersionRequest 1).1
        (deleteVersionRequest 1).2))) = true ∧
    (iStorageVersionOps.contains "deleteVersion") = false := by
  exact ⟨rfl, rfl⟩

/-- Claim C10 corrected: the two `updateDocument` implementations are not
equivalent.  `DatabaseStorage` captures exactly when the payload carries a
`content` field and the stored content is truthy, and the captured version
holds the pre-mutation content; `MemStorage` captures exactly when the
payload carries a `content` field, regardless of the stored content, and the
captured version holds the incoming content.  They agree only in creating no
version when the `content` field is omitted. -/
theorem c10_capture_policies_differ (st : Storage) (ms : MemState) (id : Nat)
    (u : UpdatePayload) (d e : Doc)
    (hdb : st.documents.find? (fun x => x.id == id) = some d)
    (hmem : ms.documents.find? (fun x => x.id == id) = some e) :
    (∀ a : String, d.content = some a → a ≠ "" → ∀ c, u.content = some c →
      (DatabaseStorage.updateDocument st id u).1.versions
        = ⟨st.nextVersionId, id, a, st.clock⟩ :: st.versions) ∧
    ((u.content = none ∨ truthy d.content = false) →
      (DatabaseStorage.updateDocument st id u).1.versions = st.versions) ∧
    (∀ c, u.content = some c →
      (MemStorage.updateDocument ms id u).1.versions
        = ⟨ms.nextVersionId, id, c, ms.clock + 1⟩ :: ms.versions) ∧
    (u.content = none →
      (MemStorage.updateDocument ms id u).1.versions = ms.versions) := by
  refine ⟨?_, ?_, ?_, ?_⟩
  · intro a ha hne c hc
    have heq := updateDocument_capture_case st id d a u c hdb ha hne hc
    rw [heq]
  · intro h
    have hnocap : (u.content.isSome && truthy d.content) = false := by
      rcases h with h | h <;> simp [h]
    have heq := updateDocument_nocapture_case st id d u hdb hnocap
    rw [heq]
  · intro c hc
    simp only [MemStorage.updateDocument, hmem, hc]
  · intro hc
    simp only [MemStorage.updateDocument, hmem, hc]

/-- A database store and a memory store holding the same single document
(id 1, content "A"), both with clock 0 and next version id 1. -/
def c10DbState : Storage :=
  ⟨[⟨1, "P", 0, 0⟩], [⟨1, 1, "T", some "A", 0, 0⟩], [], 2, 2, 1, 0⟩

/-- Memory-store counterpart of `c10DbState`. -/
def c10MemState : MemState :=
  ⟨[⟨1, 1, "T", some "A", 0, 0⟩], [], 1, 0⟩

/-- Counterexample to C10 as stated: from identical document state (content
"A") and identical payload (`content = "B"`), `DatabaseStorage` captures
"A" while `MemStorage` captures "B" — the captured contents differ. -/
theorem c10_counterexample :
    ((DatabaseStorage.updateDocument c10DbState 1 { content := some (some "B") }).1.versions.map
        (fun v => some v.content)) = [some "A"] ∧
    ((MemStorage.updateDocument c10MemState 1 { content := some (some "B") }).1.versions.map
        (fun v => v.content)) = [some "B"] ∧
    (((MemStorage.updateDocument c10MemState 1 { content := some (some "B") }).1.versions.map
        (fun v => v.content))
      == ((DatabaseStorage.updateDocument c10DbState 1 { content := some (some "B") }).1.versions.map
        (fun v => some v.content))) = false := by
  exact ⟨rfl, rfl, rfl⟩

/-- Witness for the corrected C10 at the concrete paired stores. -/
theorem c10_witness :
    (DatabaseStorage.updateDocument c10DbState 1 { content := some (some "B") }).1.versions
        = ⟨1, 1, "A", 0⟩ :: c10DbState.versions ∧
    (MemStorage.updateDocument c10MemState 1 { content := some (some "B") }).1.versions
        = ⟨1, 1, some "B", 1⟩ :: c10MemState.versions ∧
    (DatabaseStorage.updateDocument c10DbState 1 { title := some "X" }).1.versions
        = c10DbState.versions ∧
    (MemStorage.updateDocument c10MemState 1 { title := some "X" }).1.versions
        = c10MemState.versions :=
  ⟨(c10_capture_policies_differ c10DbState c10MemState 1
      { content := some (some "B") } ⟨1, 1, "T", some "A", 0, 0⟩
      ⟨1, 1, "T", some "A", 0, 0⟩ rfl rfl).1 "A" rfl (by decide)
      (some "B") rfl,
   (c10_capture_policies_differ c10DbState c10MemState 1
      { content := some (some "B") } ⟨1, 1, "T", some "A", 0, 0⟩
      ⟨1, 1, "T", some "A", 0, 0⟩ rfl rfl).2.2.1 (some "B") rfl,
   (c10_capture_policies_differ c10DbState c10MemState 1
      { title := some "X" } ⟨1, 1, "T", some "A", 0, 0⟩
      ⟨1, 1, "T", some "A", 0, 0⟩ rfl rfl).2.1 (Or.inl rfl),
   (c10_capture_policies_differ c10DbState c10MemState 1
      { title := some "X" } ⟨1, 1, "T", some "A", 0, 0⟩
      ⟨1, 1, "T", some "A", 0, 0⟩ rfl rfl).2.2.2 rfl⟩
